import Mathlib

/-!
Verification development for the `any-sync` optimistic event replication
library (TypeScript, built on Effect).  The source consists of a shared
event/schema model (`src/shared.ts`), a client replica (`src/client.ts`)
and a server replica (`src/unnamed/part_000`, i.e. `server.ts`).

The embedding below translates the replicas' state machines into pure
Lean functions.  Effectful aspects are made explicit:

* Every application-supplied callback (materializer, `onCommit`,
  `onCommited`) is impure JS code; what the library observes of it is
  (a) whether the function is present in the table, and (b) whether a
  given call returns/resolves or throws/rejects.  Presence is data in
  the embedded tables; call outcomes are Boolean oracle parameters of
  the step functions; the calls actually made, with their exact
  arguments, are returned as trace lists.

* Effect's error model is three-valued and the code mixes its layers:
  `Effect.tryPromise` turns a throw/rejection into a typed failure that
  `Effect.catchAll` can catch; `Effect.promise` assumes its promise
  never rejects and turns a rejection into a defect (fiber death) that
  `catchAll` does NOT catch; a synchronous throw inside an `Effect.gen`
  body (e.g. a `TypeError` from reading a property of `undefined`) is
  likewise a defect.  Returning a `Data.TaggedError` value from a
  `catchAll` handler yields a failing effect.  The embedding records
  this distinction in the `Outcome` type: `Outcome.fail` is a typed
  failure, `Outcome.die` a defect; `runPromise` rejects on both.

* Both drain loops are `drain.pipe(Effect.catchAll(logWarning),
  Effect.repeat(Schedule.forever))`: a typed failure of one iteration is
  logged and the loop repeats, while a defect terminates the loop.
  `drainLogs` and `drainContinues` embed that pipeline.
-/

/-- Payloads that occur in the repository's event schemas
(`Schema.Number`, `Schema.String`, `Schema.Boolean`, `Schema.Void`). -/
inductive Payload where
  | num (n : Int)
  | str (s : String)
  | boolean (b : Bool)
  | unit
deriving DecidableEq, Repr

/-- The payload schemas used by the repository (`shared.ts` declares
`Events = Record<string, Schema.Schema<any>>`; the concrete schemas used
are Number/String/Boolean/Void). -/
inductive PSchema where
  | num
  | str
  | boolean
  | unit
deriving DecidableEq, Repr

/-- Schema conformance: whether a payload decodes under a schema. -/
def conforms : PSchema → Payload → Bool
  | .num, .num _ => true
  | .str, .str _ => true
  | .boolean, .boolean _ => true
  | .unit, .unit => true
  | _, _ => false

/-- `CommitEvent` from `shared.ts`: `{ name, payload, clientId? }`.
The optional `error` field of the TS type is stripped by schema
validation (the struct only declares `name`, `payload`, `clientId`), so
queued events never carry it and it is omitted here. -/
structure CommitEv where
  name : String
  payload : Payload
  clientId : Option String
deriving DecidableEq, Repr

/-- `CommittedEvent` from `shared.ts`: a `CommitEvent` plus `sequence`
and the optional `error` flag.  The code only tests `error` for
truthiness (`if (event.error)`), so absent and `false` coincide and it
is embedded as a `Bool`. -/
structure CommittedEv where
  name : String
  payload : Payload
  clientId : Option String
  sequence : Int
  error : Bool
deriving DecidableEq, Repr

/-- The `status` Ref of either replica. -/
inductive Status where
  | idle
  | processing
deriving DecidableEq, Repr

/-- Result of running an Effect in this code base: `ok` (success),
`fail` (typed failure, catchable by `Effect.catchAll`), `die` (defect,
not catchable by `catchAll`).  `runPromise` rejects on both `fail` and
`die`. -/
inductive Outcome where
  | ok
  | fail
  | die
deriving DecidableEq, Repr

/-- Whether `runtime.runPromise` of an effect with this outcome yields a
rejected promise. -/
def promiseRejects : Outcome → Bool
  | .ok => false
  | .fail => true
  | .die => true

/-- Whether the drain pipeline `catchAll(logWarning)` logs for this
iteration outcome (only typed failures are caught and logged). -/
def drainLogs : Outcome → Bool
  | .fail => true
  | _ => false

/-- Whether `catchAll(logWarning) |> repeat(forever)` proceeds to the
next iteration after this outcome: defects escape `catchAll` and kill
the (daemon) fiber, ending the loop. -/
def drainContinues : Outcome → Bool
  | .die => false
  | _ => true

/-- Lookup in a string-keyed table (JS object property read). -/
def lookupKey {α : Type} : List (String × α) → String → Option α
  | [], _ => none
  | (k, v) :: rest, key => if k = key then some v else lookupKey rest key

/-- Key removal by object rest-destructuring
`({ [id]: _, ...rest }) => rest`. -/
def removeKey {α : Type} (key : String) : List (String × α) → List (String × α)
  | [] => []
  | (k, v) :: rest =>
      if k = key then removeKey key rest else (k, v) :: removeKey key rest

/-- Key insertion by object spread `{ ...pending, [id]: ev }` (replaces
in place if the key exists, else appends). -/
def insertKey {α : Type} (key : String) (v : α) : List (String × α) → List (String × α)
  | [] => [(key, v)]
  | (k, w) :: rest =>
      if k = key then (k, v) :: rest else (k, w) :: insertKey key v rest

/-- `schemaFromEvents` (shared.ts) builds a union of structs, one per
declared key, each requiring `name` to equal that key literally and
`payload` to conform to the declared schema (`clientId` optional).
An event decodes iff its name is a declared key whose schema accepts
the payload. -/
def eventValid (events : List (String × PSchema)) (e : CommitEv) : Bool :=
  match lookupKey events e.name with
  | some sch => conforms sch e.payload
  | none => false

/-- Server replica state (`ServerContext` in server.ts): the `sequence`
and `status` Refs, the unbounded queue, and the schema derived from the
declared events.  Application state touched by materializers is owned by
the application and is outside the replica. -/
structure ServerState where
  sequence : Int
  status : Status
  queue : List CommitEv
  events : List (String × PSchema)
deriving DecidableEq, Repr

/-- `Server.commit` (server.ts lines 77-96): decode the event against
the schema — a decode failure fails the effect, so `runPromise` rejects
and nothing is enqueued — otherwise offer it to the queue, flip `status`
to `processing` if idle, fork the drain daemon (fork-and-return), and
resolve.  The function takes no materializer oracle: the returned
promise settles on enqueue and never waits for materialization. -/
def serverCommit (st : ServerState) (e : CommitEv) : Outcome × ServerState :=
  if eventValid st.events e then
    (Outcome.ok, { st with queue := st.queue ++ [e], status := Status.processing })
  else
    (Outcome.fail, st)

/-- One iteration of the server drain loop (`Server.process`, server.ts
lines 98-128) on a dequeued event `ev` with current sequence `seq`.
`hasCb` — whether an `onCommited` callback was provided; `matOk` —
whether the materializer call returns/resolves; `cbOk` — whether the
`onCommited` call made in this iteration (at most one happens)
returns/resolves.  Faithful control flow:

* materializer throws (`tryPromise` failure): `tapError` invokes
  `onCommited({...event, sequence: -1, error: true})` (its own outcome
  is irrelevant — the pipeline then hits
  `catchAll(e => new MaterializerError(...))`, a failing effect), the
  iteration fails and `sequence` is never touched;
* materializer succeeds: read `seq`, invoke
  `onCommited({...event, sequence: seq})` under `tryPromise` piped into
  `catchAll(e => new CommitError(...))` — on a callback throw the
  iteration therefore fails BEFORE `Ref.set(sequence, seq + 1)` runs,
  so the sequence is not advanced; only when the callback also succeeds
  (or none is configured) is the counter set to `seq + 1`.

`calls` lists the `CommittedEvent`s passed to `onCommited`. -/
def serverStep (hasCb matOk cbOk : Bool) (seq : Int) (ev : CommitEv) :
    Outcome × Int × List CommittedEv :=
  if matOk then
    if hasCb then
      if cbOk then
        (Outcome.ok, seq + 1, [⟨ev.name, ev.payload, ev.clientId, seq, false⟩])
      else
        (Outcome.fail, seq, [⟨ev.name, ev.payload, ev.clientId, seq, false⟩])
    else
      (Outcome.ok, seq + 1, [])
  else
    (Outcome.fail, seq,
      if hasCb then [⟨ev.name, ev.payload, ev.clientId, -1, true⟩] else [])

/-- One queued commit together with the behaviour of the impure calls it
triggers: `matOk` — the server materializer's outcome, `cbOk` — the
outcome of the (single) `onCommited` invocation of that iteration. -/
structure SStepIn where
  ev : CommitEv
  matOk : Bool
  cbOk : Bool
deriving DecidableEq, Repr

/-- The server drain loop over a finite queue of commits, with an
`onCommited` callback configured: every iteration outcome here is `ok`
or `fail` (never a defect — each impure call sits under `tryPromise`),
so `catchAll(logWarning) |> repeat(forever)` always proceeds to the next
event.  Returns the final sequence and the concatenated trace of
`onCommited` calls. -/
def serverRun (seq : Int) : List SStepIn → Int × List CommittedEv
  | [] => (seq, [])
  | s :: rest =>
      let r := serverStep true s.matOk s.cbOk seq s.ev
      let rr := serverRun r.2.1 rest
      (rr.1, r.2.2 ++ rr.2)

/-- Sequence numbers carried by the non-error (success) acknowledgements
of a trace of `onCommited` calls. -/
def successSeqs (calls : List CommittedEv) : List Int :=
  (calls.filter (fun c => !c.error)).map (fun c => c.sequence)

/-- Number of commits in a drain whose materializer succeeded. -/
def matCount (steps : List SStepIn) : Nat :=
  (steps.filter (fun s => s.matOk)).length

/-- A client materializer table entry (`ClientMaterializers`,
client.ts lines 4-9): an object expected to hold an `apply` and a
`rollback` function.  The flags record whether each function is actually
present — the TypeScript type demands both, but types are erased and the
runtime code never checks, so a table smuggled past the type system may
lack either. -/
structure MatEntry where
  hasApply : Bool
  hasRollback : Bool
deriving DecidableEq, Repr

/-- Client replica state (`ClientContext`, client.ts lines 16-26):
pending table, sequence and status Refs, queue, schema (kept as the
declared events), materializer table, and whether an `onCommit`
callback was configured. -/
structure ClientState where
  pending : List (String × CommitEv)
  sequence : Int
  status : Status
  queue : List CommitEv
  events : List (String × PSchema)
  materializers : List (String × MatEntry)
  hasOnCommit : Bool
deriving DecidableEq, Repr

/-- `ClientOptions` (client.ts lines 50-60). -/
structure ClientOpts where
  sequence : Int
  events : List (String × PSchema)
  materializers : List (String × MatEntry)
  hasOnCommit : Bool
deriving DecidableEq, Repr

/-- The `Client` constructor (client.ts lines 69-87): builds the layer
with an empty pending table, the configured initial sequence, `idle`
status, an empty queue, the schema derived from `options.events`, and
`options.materializers` stored verbatim.  No effect in the layer can
fail and no inspection of the materializer table is performed: the
constructor is a total function that cannot raise a configuration
error. -/
def mkClient (opts : ClientOpts) : ClientState :=
  { pending := []
    sequence := opts.sequence
    status := Status.idle
    queue := []
    events := opts.events
    materializers := opts.materializers
    hasOnCommit := opts.hasOnCommit }

/-- `Client.commit` (client.ts lines 89-108): identical validate-then-
enqueue-then-maybe-fork shape as `Server.commit`; rejects exactly on
schema decode failure, in which case nothing is enqueued; otherwise
resolves once the event is offered, without waiting for the drain. -/
def clientCommit (st : ClientState) (e : CommitEv) : Outcome × ClientState :=
  if eventValid st.events e then
    (Outcome.ok, { st with queue := st.queue ++ [e], status := Status.processing })
  else
    (Outcome.fail, st)

/-- Result of one `Client.receive` call: the run outcome, the pending
table afterwards, and the rollback/apply materializer calls made (each
receives the full `CommittedEvent`). -/
structure ReceiveResult where
  outcome : Outcome
  pending : List (String × CommitEv)
  rollbackCalls : List CommittedEv
  applyCalls : List CommittedEv
deriving DecidableEq, Repr

/-- The no-pending-match tail of `Client.receive` (client.ts lines
130-137): an error acknowledgement is ignored (plain return, success);
otherwise `ctx.materializers[event.name].apply` is read — a `TypeError`
(missing table entry) thrown in the generator body is a defect — and
invoked under `Effect.tryPromise` (a missing `apply` function or a
throwing call is a typed failure; there is no catch, so `runPromise`
rejects). -/
def receiveForeign (mats : List (String × MatEntry)) (applyOk : Bool)
    (pending : List (String × CommitEv)) (ev : CommittedEv) : ReceiveResult :=
  if ev.error then
    ⟨Outcome.ok, pending, [], []⟩
  else
    match lookupKey mats ev.name with
    | none => ⟨Outcome.die, pending, [], []⟩
    | some entry =>
        if entry.hasApply then
          if applyOk then ⟨Outcome.ok, pending, [], [ev]⟩
          else ⟨Outcome.fail, pending, [], [ev]⟩
        else ⟨Outcome.fail, pending, [], []⟩

/-- `Client.receive` (client.ts lines 110-139).  If the event carries a
`clientId` that is a key of `pending`: on `error`,
`ctx.materializers[event.name].rollback` is read (defect if the entry is
missing) and invoked under `Effect.tryPromise` (typed failure if the
function is missing or throws) — the two subsequent pending-removal
updates run only if it succeeded, so a failed rollback leaves the entry
in place and, with no catch in `receive`, rejects the returned promise;
on success (the inner `if` guards only the rollback, and the removal at
line 126 runs in both sub-branches — on the error path the key is
removed twice, the second being a no-op) the entry is removed with no
materializer call.  Without a matching `clientId` the event falls
through to `receiveForeign`.  `rollbackOk`/`applyOk` are the outcome
oracles of the respective materializer calls. -/
def receiveStep (mats : List (String × MatEntry)) (rollbackOk applyOk : Bool)
    (pending : List (String × CommitEv)) (ev : CommittedEv) : ReceiveResult :=
  match ev.clientId with
  | some cid =>
      if (lookupKey pending cid).isSome then
        if ev.error then
          match lookupKey mats ev.name with
          | none => ⟨Outcome.die, pending, [], []⟩
          | some entry =>
              if entry.hasRollback then
                if rollbackOk then
                  ⟨Outcome.ok, removeKey cid (removeKey cid pending), [ev], []⟩
                else
                  ⟨Outcome.fail, pending, [ev], []⟩
              else ⟨Outcome.fail, pending, [], []⟩
        else ⟨Outcome.ok, removeKey cid pending, [], []⟩
      else receiveForeign mats applyOk pending ev
  | none => receiveForeign mats applyOk pending ev

/-- The pending-table test performed by `receive`
(`event.clientId && pending[event.clientId]`): the matched clientId, if
any. -/
def matchedCid (pending : List (String × CommitEv)) (ev : CommittedEv) :
    Option String :=
  match ev.clientId with
  | some cid => if (lookupKey pending cid).isSome then some cid else none
  | none => none

/-- Result of one client drain iteration: outcome, pending table
afterwards, apply-materializer calls and `onCommit` calls (each receives
the event with the freshly minted `clientId`). -/
structure DrainResult where
  outcome : Outcome
  pending : List (String × CommitEv)
  applyCalls : List CommitEv
  onCommitCalls : List CommitEv
deriving DecidableEq, Repr

/-- One iteration of the client drain loop (`Client.process`, client.ts
lines 141-169) on the dequeued event `ev`, with `cid` the `nanoid()`
minted for it (nondeterministic in the source, a parameter here).
Control flow: read `ctx.materializers[event.name].apply` (defect if the
table entry is missing); build `clientEvent = {...event, clientId}`;
invoke apply under `Effect.tryPromise` (typed failure if the function is
missing or the call throws — then the pending insertion and `onCommit`
are both skipped); on success insert `clientEvent` into `pending`; then
invoke `onCommit?.(clientEvent)` under `Effect.promise` — a wrapper that
assumes the promise never rejects, so an `onCommit` throw/rejection is a
DEFECT, which the loop's `catchAll` does not intercept. -/
def clientDrainStep (mats : List (String × MatEntry))
    (hasOnCommit applyOk onCommitOk : Bool)
    (pending : List (String × CommitEv)) (ev : CommitEv) (cid : String) :
    DrainResult :=
  let clientEvent : CommitEv := { ev with clientId := some cid }
  match lookupKey mats ev.name with
  | none => ⟨Outcome.die, pending, [], []⟩
  | some entry =>
      if entry.hasApply then
        if applyOk then
          let pending1 := insertKey cid clientEvent pending
          if hasOnCommit then
            if onCommitOk then ⟨Outcome.ok, pending1, [clientEvent], [clientEvent]⟩
            else ⟨Outcome.die, pending1, [clientEvent], [clientEvent]⟩
          else ⟨Outcome.ok, pending1, [clientEvent], []⟩
        else ⟨Outcome.fail, pending, [clientEvent], []⟩
      else ⟨Outcome.fail, pending, [], []⟩

/-- The event kinds used throughout the repository's tests. -/
def demoEvents : List (String × PSchema) :=
  [("increment", PSchema.num), ("decrement", PSchema.num), ("reset", PSchema.unit)]

/-- A fully populated client materializer table over `demoEvents`. -/
def demoMats : List (String × MatEntry) :=
  [("increment", ⟨true, true⟩), ("decrement", ⟨true, true⟩), ("reset", ⟨true, true⟩)]

/-- `{ name: 'increment', payload: 5 }`. -/
def incEv : CommitEv := ⟨"increment", Payload.num 5, none⟩

/-- `{ name: 'increment', payload: 3 }`. -/
def incEv3 : CommitEv := ⟨"increment", Payload.num 3, none⟩

/-- `{ name: 'decrement', payload: 5 }`. -/
def decEv : CommitEv := ⟨"decrement", Payload.num 5, none⟩

/-- A pending entry as minted by the drain loop: `incEv` with clientId
`"abc12"`. -/
def pendEv : CommitEv := ⟨"increment", Payload.num 5, some "abc12"⟩

/-- The server's rejection acknowledgement for `pendEv`. -/
def rejEv : CommittedEv := ⟨"increment", Payload.num 5, some "abc12", -1, true⟩

/-- When the receive test `event.clientId && pending[event.clientId]`
fails, `receive` runs its blind-apply tail. -/
theorem receiveStep_unmatched (mats : List (String × MatEntry))
    (rollbackOk applyOk : Bool) (pending : List (String × CommitEv))
    (ev : CommittedEv) (h : matchedCid pending ev = none) :
    receiveStep mats rollbackOk applyOk pending ev
      = receiveForeign mats applyOk pending ev := by
  unfold matchedCid at h
  cases hc : ev.clientId with
  | none => simp [receiveStep, hc]
  | some cid =>
      rw [hc] at h
      simp only [] at h
      by_cases hl : (lookupKey pending cid).isSome = true
      · simp [hl] at h
      · simp [receiveStep, hc, hl]

/-- When the receive test succeeds, the matched id is the event's
`clientId` and it is a key of `pending`. -/
theorem matchedCid_eq_some (pending : List (String × CommitEv))
    (ev : CommittedEv) (cid : String) (h : matchedCid pending ev = some cid) :
    ev.clientId = some cid ∧ (lookupKey pending cid).isSome = true := by
  unfold matchedCid at h
  cases hc : ev.clientId with
  | none => rw [hc] at h; simp at h
  | some c =>
      rw [hc] at h
      simp only [] at h
      by_cases hl : (lookupKey pending c).isSome = true
      · simp [hl] at h
        subst h
        exact ⟨rfl, hl⟩
      · simp [hl] at h

/-- The blind-apply tail of `receive` never touches the pending table. -/
theorem receiveForeign_pending (mats : List (String × MatEntry))
    (applyOk : Bool) (pending : List (String × CommitEv)) (ev : CommittedEv) :
    (receiveForeign mats applyOk pending ev).pending = pending := by
  unfold receiveForeign
  split
  · rfl
  · split
    · rfl
    · split
      · split <;> rfl
      · rfl

/-- Shifting a consecutive integer block: the block of length `n + 1`
starting at `c` is `c` followed by the block of length `n` starting at
`c + 1`. -/
theorem range_map_shift (c : Int) (n : Nat) :
    (List.range (n + 1)).map (fun i : Nat => c + (i : Int))
      = c :: (List.range n).map (fun i : Nat => (c + 1) + (i : Int)) := by
  induction n with
  | zero => simp [List.range_succ]
  | succ m ih =>
      rw [List.range_succ, List.map_append, ih, List.range_succ, List.map_append]
      simp only [List.map_cons, List.map_nil, List.cons_append, List.nil_append]
      congr 2
      push_cast
      ring_nf

/-- C1 counterexample: a server commit whose materializer succeeds but
whose `onCommitted` callback rejects, at initial sequence 0.  The
iteration's `Ref.set(sequence, sequence + 1)` sits after the callback
pipeline whose `catchAll` returns a failing `CommitError`, so the
counter stays 0 — it is NOT advanced by 1 as the claim states. -/
theorem server_cb_error_seq_not_advanced_cex :
    (serverStep true true false 0 incEv).2.1 = 0
    ∧ (serverStep true true false 0 incEv).2.1 ≠ 0 + 1
    ∧ (serverStep true true false 0 incEv).1 = Outcome.fail := by
  decide

/-- C1 (amended): for every server commit whose materializer succeeds,
if the configured `onCommitted` callback throws or rejects, the
iteration fails with a typed `CommitError`, which the drain pipeline's
`catchAll` logs as a warning, and the loop continues with the next
event; but the sequence counter is NOT advanced for that commit — the
`Ref.set` is skipped, so the same sequence value will be offered to the
next commit.  The callback was invoked once with the current sequence
and no error flag. -/
theorem server_cb_error_logged_continue_no_advance (ev : CommitEv) (seq : Int) :
    serverStep true true false seq ev
      = (Outcome.fail, seq, [⟨ev.name, ev.payload, ev.clientId, seq, false⟩])
    ∧ drainLogs (serverStep true true false seq ev).1 = true
    ∧ drainContinues (serverStep true true false seq ev).1 = true := by
  refine ⟨rfl, ?_, ?_⟩ <;> rfl

/-- C4: for every server commit whose materializer throws or rejects
(and whatever the `onCommitted` callback then does), the sequence
counter is not advanced and `onCommitted` is invoked exactly once, with
a `CommittedEvent` carrying `sequence = -1` and `error = true` in which
the original `name`, `payload` and `clientId` are preserved verbatim;
the iteration's failure is logged and the drain loop continues. -/
theorem server_mat_failure_emits_error_ack (ev : CommitEv) (seq : Int)
    (cbOk : Bool) :
    serverStep true false cbOk seq ev
      = (Outcome.fail, seq, [⟨ev.name, ev.payload, ev.clientId, -1, true⟩])
    ∧ drainContinues (serverStep true false cbOk seq ev).1 = true := by
  exact ⟨rfl, rfl⟩

/-- C3 counterexample: two server commits, both with succeeding
materializers, starting from sequence 0; the first one's `onCommitted`
rejects.  Both are "successful commits" in the spec's sense (their
materializer succeeded and their acknowledgements carry `error:false`),
yet the sequence values passed to `onCommitted` are `[0, 0]`, not the
consecutive `[0, 1]`, and the counter advanced only once over two
successful commits. -/
theorem server_seq_not_consecutive_cex :
    successSeqs (serverRun 0 [⟨incEv, true, false⟩, ⟨incEv3, true, true⟩]).2
        = [0, 0]
    ∧ successSeqs (serverRun 0 [⟨incEv, true, false⟩, ⟨incEv3, true, true⟩]).2
        ≠ [0, 1]
    ∧ (serverRun 0 [⟨incEv, true, false⟩, ⟨incEv3, true, true⟩]).1 = 1
    ∧ matCount [⟨incEv, true, false⟩, ⟨incEv3, true, true⟩] = 2 := by
  decide

/-- C3 (amended): over any finite drain in which `onCommitted` does not
throw on the materializer-successful commits, the sequence values passed
to `onCommitted` on those successful commits are exactly the consecutive
integers `s₀, s₀ + 1, …`; each advances the counter by exactly 1 (the
final counter is `s₀` plus the number of successful commits, failures
advancing nothing) and the counter never regresses.  Without that
proviso a rejecting callback leaves the counter where it was and the
next successful commit is handed the same value (see the
counterexample). -/
theorem server_seq_consecutive (s₀ : Int) (steps : List SStepIn)
    (h : steps.all (fun s => !s.matOk || s.cbOk) = true) :
    successSeqs (serverRun s₀ steps).2
        = (List.range (matCount steps)).map (fun i : Nat => s₀ + (i : Int))
    ∧ (serverRun s₀ steps).1 = s₀ + (matCount steps : Int)
    ∧ s₀ ≤ (serverRun s₀ steps).1 := by
  induction steps generalizing s₀ with
  | nil => simp [serverRun, successSeqs, matCount]
  | cons s rest ih =>
      rw [List.all_cons, Bool.and_eq_true] at h
      obtain ⟨h1, h2⟩ := h
      cases hm : s.matOk with
      | false =>
          obtain ⟨ih1, ih2, ih3⟩ := ih s₀ h2
          refine ⟨?_, ?_, ?_⟩
          · simpa [serverRun, serverStep, hm, successSeqs, matCount,
              List.filter_cons] using ih1
          · simpa [serverRun, serverStep, hm, matCount, List.filter_cons] using ih2
          · simpa [serverRun, serverStep, hm] using ih3
      | true =>
          have hcb : s.cbOk = true := by
            rw [hm] at h1; simpa using h1
          obtain ⟨ih1, ih2, ih3⟩ := ih (s₀ + 1) h2
          refine ⟨?_, ?_, ?_⟩
          · simp only [serverRun, serverStep, hm, hcb, if_true, successSeqs,
              List.filter_append, List.map_append, List.filter_cons, matCount]
            simp [successSeqs] at ih1
            simp [ih1, matCount, range_map_shift]
          · simp [serverRun, serverStep, hm, hcb, matCount, List.filter_cons] at *
            omega
          · simp [serverRun, serverStep, hm, hcb] at *
            omega

/-- C3 witness: a three-commit drain (success, materializer failure,
success) from sequence 0 whose callbacks all resolve; the success
acknowledgements carry exactly `[0, 1]` and the final counter is 2. -/
theorem server_seq_consecutive_witness :
    successSeqs
        (serverRun 0 [⟨incEv, true, true⟩, ⟨decEv, false, true⟩, ⟨incEv3, true, true⟩]).2
      = (List.range
          (matCount [⟨incEv, true, true⟩, ⟨decEv, false, true⟩, ⟨incEv3, true, true⟩])).map
          (fun i : Nat => (0 : Int) + (i : Int))
    ∧ (serverRun 0 [⟨incEv, true, true⟩, ⟨decEv, false, true⟩, ⟨incEv3, true, true⟩]).1
      = 0 + (matCount [⟨incEv, true, true⟩, ⟨decEv, false, true⟩, ⟨incEv3, true, true⟩] : Int)
    ∧ (0 : Int) ≤ (serverRun 0 [⟨incEv, true, true⟩, ⟨decEv, false, true⟩, ⟨incEv3, true, true⟩]).1 :=
  server_seq_consecutive 0
    [⟨incEv, true, true⟩, ⟨decEv, false, true⟩, ⟨incEv3, true, true⟩] (by decide)

/-- C2: the repository's own client test suite ("should handle rollback
errors gracefully") commits `{increment, 5}`, has the server reject it,
and asserts `client.receive(serverEvent)` RESOLVES despite the rollback
materializer throwing; the spec likewise promises the error is logged
and the pending entry still removed.  The code disagrees: the rollback
runs under `Effect.tryPromise` with no catch anywhere in `receive`, so
the failure propagates — `runPromise` rejects, nothing is logged by the
library, and the two pending-removal updates after the call never run.
This theorem evaluates the embedded `receive` at exactly that failing
input: the outcome is a typed failure (rejected promise) and the
pending table still contains the entry. -/
theorem client_rollback_error_rejects_and_keeps_pending :
    receiveStep demoMats false true [("abc12", pendEv)] rejEv
      = ⟨Outcome.fail, [("abc12", pendEv)], [rejEv], []⟩
    ∧ promiseRejects
        (receiveStep demoMats false true [("abc12", pendEv)] rejEv).outcome = true
    ∧ lookupKey
        (receiveStep demoMats false true [("abc12", pendEv)] rejEv).pending "abc12"
      = some pendEv := by
  decide

/-- C5: the reconciliation dispatch of `receive`, for an event whose
kind has a materializer entry supplying both functions, and whose
materializer calls succeed (the throwing cases are settled separately):
matched `clientId` + `error` runs the rollback with the full event and
removes the entry (the code removes it twice, the second removal a
no-op); matched + no error removes the entry with no materializer call;
unmatched or absent `clientId` + no error blind-applies the event;
unmatched or absent + `error` does nothing. -/
theorem client_receive_dispatch (mats : List (String × MatEntry))
    (entry : MatEntry) (pending : List (String × CommitEv)) (ev : CommittedEv)
    (hm : lookupKey mats ev.name = some entry)
    (ha : entry.hasApply = true) (hr : entry.hasRollback = true) :
    receiveStep mats true true pending ev
      = match matchedCid pending ev with
        | some cid =>
            if ev.error then
              ⟨Outcome.ok, removeKey cid (removeKey cid pending), [ev], []⟩
            else ⟨Outcome.ok, removeKey cid pending, [], []⟩
        | none =>
            if ev.error then ⟨Outcome.ok, pending, [], []⟩
            else ⟨Outcome.ok, pending, [], [ev]⟩ := by
  cases hc : ev.clientId with
  | none =>
      cases he : ev.error <;>
        simp [receiveStep, receiveForeign, matchedCid, hc, he, hm, ha]
  | some cid =>
      by_cases hl : (lookupKey pending cid).isSome = true
      · cases he : ev.error <;>
          simp [receiveStep, receiveForeign, matchedCid, hc, hl, he, hm, ha, hr]
      · cases he : ev.error <;>
          simp [receiveStep, receiveForeign, matchedCid, hc, hl, he, hm, ha]

/-- C5 witness: the matched-rejection case at a concrete input — the
rollback runs with the full acknowledgement and the pending entry is
removed. -/
theorem client_receive_dispatch_witness :
    receiveStep demoMats true true [("abc12", pendEv)] rejEv
      = ⟨Outcome.ok, [], [rejEv], []⟩ :=
  (client_receive_dispatch demoMats ⟨true, true⟩ [("abc12", pendEv)] rejEv
      (by decide) rfl rfl).trans (by decide)

/-- C6 counterexample: one client drain iteration whose optimistic apply
succeeds and whose `onCommit` callback rejects.  `onCommit` runs under
`Effect.promise`, whose contract is that the promise never rejects; the
rejection is therefore a defect, the loop's `catchAll` does not catch
it (nothing is logged by the pipeline) and the repeat never runs again —
the drain loop terminates instead of continuing with the next event,
refuting "any error in any step is logged and the loop continues". -/
theorem client_onCommit_error_kills_drain_cex :
    clientDrainStep demoMats true true false [] incEv "abc12"
      = ⟨Outcome.die, [("abc12", ⟨"increment", Payload.num 5, some "abc12"⟩)],
          [⟨"increment", Payload.num 5, some "abc12"⟩],
          [⟨"increment", Payload.num 5, some "abc12"⟩]⟩
    ∧ drainContinues Outcome.die = false
    ∧ drainLogs Outcome.die = false := by
  decide

/-- C6 (amended): in the client drain loop, for every dequeued event of
a declared kind a clientId is minted and the apply materializer runs
first, receiving the event already carrying that clientId; when apply
succeeds the event is inserted into `pending` and only then does
`onCommit` fire (when configured); when apply throws, the event is not
recorded in `pending`, `onCommit` is not invoked, and the typed failure
is logged by the loop's `catchAll`, which continues with the next event.
However, an error thrown or rejected by `onCommit` itself — wrapped by
`Effect.promise`, which assumes no rejection — is a defect: it is
neither caught nor logged by the loop pipeline and terminates the drain
loop. -/
theorem client_drain_step_behaviour (mats : List (String × MatEntry))
    (entry : MatEntry) (hasOnCommit applyOk onCommitOk : Bool)
    (pending : List (String × CommitEv)) (ev : CommitEv) (cid : String)
    (hm : lookupKey mats ev.name = some entry) (ha : entry.hasApply = true) :
    (clientDrainStep mats hasOnCommit applyOk onCommitOk pending ev cid).applyCalls
        = [{ ev with clientId := some cid }]
    ∧ (applyOk = true →
        (clientDrainStep mats hasOnCommit applyOk onCommitOk pending ev cid).pending
            = insertKey cid { ev with clientId := some cid } pending
        ∧ (clientDrainStep mats hasOnCommit applyOk onCommitOk pending ev cid).onCommitCalls
            = (if hasOnCommit then [{ ev with clientId := some cid }] else []))
    ∧ (applyOk = false →
        (clientDrainStep mats hasOnCommit applyOk onCommitOk pending ev cid).outcome
            = Outcome.fail
        ∧ (clientDrainStep mats hasOnCommit applyOk onCommitOk pending ev cid).pending
            = pending
        ∧ (clientDrainStep mats hasOnCommit applyOk onCommitOk pending ev cid).onCommitCalls
            = []
        ∧ drainLogs
            (clientDrainStep mats hasOnCommit applyOk onCommitOk pending ev cid).outcome
            = true
        ∧ drainContinues
            (clientDrainStep mats hasOnCommit applyOk onCommitOk pending ev cid).outcome
            = true)
    ∧ (applyOk = true → hasOnCommit = true → onCommitOk = false →
        (clientDrainStep mats hasOnCommit applyOk onCommitOk pending ev cid).outcome
            = Outcome.die
        ∧ drainContinues
            (clientDrainStep mats hasOnCommit applyOk onCommitOk pending ev cid).outcome
            = false
        ∧ drainLogs
            (clientDrainStep mats hasOnCommit applyOk onCommitOk pending ev cid).outcome
            = false) := by
  refine ⟨?_, ?_, ?_, ?_⟩
  · cases hao : applyOk <;>
      cases hoc : hasOnCommit <;>
      cases hok : onCommitOk <;>
      simp [clientDrainStep, hm, ha]
  · intro hao
    subst hao
    cases hoc : hasOnCommit <;>
      cases hok : onCommitOk <;>
      simp [clientDrainStep, hm, ha]
  · intro hao
    subst hao
    simp [clientDrainStep, hm, ha, drainLogs, drainContinues]
  · intro hao hoc hok
    subst hao; subst hoc; subst hok
    simp [clientDrainStep, hm, ha, drainLogs, drainContinues]

/-- C6 witness: the apply-throws case at a concrete input — the event is
not recorded in pending, `onCommit` is not invoked, the failure is
logged and the loop continues. -/
theorem client_drain_step_behaviour_witness :
    (clientDrainStep demoMats true false true [] incEv "abc12").applyCalls
        = [⟨"increment", Payload.num 5, some "abc12"⟩]
    ∧ (clientDrainStep demoMats true false true [] incEv "abc12").outcome
        = Outcome.fail
    ∧ (clientDrainStep demoMats true false true [] incEv "abc12").pending = []
    ∧ (clientDrainStep demoMats true false true [] incEv "abc12").onCommitCalls = [] := by
  have h := client_drain_step_behaviour demoMats ⟨true, true⟩ true false true []
    incEv "abc12" (by decide) rfl
  exact ⟨h.1, (h.2.2.1 rfl).1, (h.2.2.1 rfl).2.1, (h.2.2.1 rfl).2.2.1⟩

/-- A materializer table that declares `increment` but supplies only the
`apply` function — expressible at runtime because TypeScript types are
erased. -/
def badMats : List (String × MatEntry) := [("increment", ⟨true, false⟩)]

/-- C8 counterexample: constructing a client over a table whose
`increment` entry lacks `rollback`.  The constructor (a total function,
mirroring the source constructor whose layer effects cannot fail and
which never inspects the table) succeeds and stores the deficient table
verbatim — no configuration error is raised at construction.  The
absence only surfaces when the rollback is first needed: `receive` of a
matching error acknowledgement then fails at the call site (the
undefined `rollback` is not a function) without any rollback running. -/
theorem client_ctor_no_runtime_check_cex :
    mkClient ⟨0, demoEvents, badMats, false⟩
      = ⟨[], 0, Status.idle, [], demoEvents, badMats, false⟩
    ∧ (receiveStep badMats true true [("abc12", pendEv)] rejEv).outcome
      = Outcome.fail
    ∧ (receiveStep badMats true true [("abc12", pendEv)] rejEv).rollbackCalls
      = []
    ∧ (receiveStep badMats true true [("abc12", pendEv)] rejEv).pending
      = [("abc12", pendEv)] := by
  decide

/-- C8 (amended): supplying both `apply` and `rollback` per declared
kind is demanded by the constructor's static TypeScript type, but the
runtime constructor performs no validation: it stores whatever table it
is given and cannot fail, so a missing function is detected only when
first invoked — a missing `rollback`, for instance, makes `receive` of
a matching error acknowledgement fail (rejecting its promise) with no
rollback executed and the pending entry left in place. -/
theorem client_ctor_detection_at_use (opts : ClientOpts)
    (mats : List (String × MatEntry)) (entry : MatEntry) (rOk aOk : Bool)
    (pending : List (String × CommitEv)) (ev : CommittedEv) (cid : String)
    (hm : lookupKey mats ev.name = some entry) (hr : entry.hasRollback = false)
    (hmc : matchedCid pending ev = some cid) (he : ev.error = true) :
    mkClient opts
      = ⟨[], opts.sequence, Status.idle, [], opts.events,
          opts.materializers, opts.hasOnCommit⟩
    ∧ (receiveStep mats rOk aOk pending ev).outcome = Outcome.fail
    ∧ (receiveStep mats rOk aOk pending ev).rollbackCalls = []
    ∧ (receiveStep mats rOk aOk pending ev).pending = pending := by
  obtain ⟨hc, hl⟩ := matchedCid_eq_some pending ev cid hmc
  refine ⟨rfl, ?_, ?_, ?_⟩ <;> simp [receiveStep, hc, hl, he, hm, hr]

/-- C8 witness: the amended statement at the concrete deficient table. -/
theorem client_ctor_detection_at_use_witness :
    mkClient ⟨0, demoEvents, badMats, false⟩
      = ⟨[], 0, Status.idle, [], demoEvents, badMats, false⟩
    ∧ (receiveStep badMats false true [("abc12", pendEv)] rejEv).outcome
      = Outcome.fail
    ∧ (receiveStep badMats false true [("abc12", pendEv)] rejEv).rollbackCalls
      = [] :=
  have h := client_ctor_detection_at_use ⟨0, demoEvents, badMats, false⟩
    badMats ⟨true, false⟩ false true [("abc12", pendEv)] rejEv "abc12"
    (by decide) rfl (by decide) rfl
  ⟨h.1, h.2.1, h.2.2.1⟩

/-- C9: `receive` performs no schema validation, and an event that falls
through to the blind-apply branch (no error flag, no matching pending
entry) with an undeclared name makes
`ctx.materializers[event.name].apply` throw a `TypeError` inside the
generator body — a defect.  The returned future rejects; the event is
not silently ignored and no materializer runs. -/
theorem client_receive_unknown_name_rejects (mats : List (String × MatEntry))
    (rOk aOk : Bool) (pending : List (String × CommitEv)) (ev : CommittedEv)
    (hmc : matchedCid pending ev = none) (he : ev.error = false)
    (hm : lookupKey mats ev.name = none) :
    (receiveStep mats rOk aOk pending ev).outcome = Outcome.die
    ∧ promiseRejects (receiveStep mats rOk aOk pending ev).outcome = true
    ∧ (receiveStep mats rOk aOk pending ev).applyCalls = []
    ∧ (receiveStep mats rOk aOk pending ev).rollbackCalls = [] := by
  rw [receiveStep_unmatched mats rOk aOk pending ev hmc]
  refine ⟨?_, ?_, ?_, ?_⟩ <;> simp [receiveForeign, he, hm, promiseRejects]

/-- C9 witness: a success acknowledgement for the undeclared kind
`unknown` with no clientId — `receive` rejects. -/
theorem client_receive_unknown_name_rejects_witness :
    (receiveStep demoMats true true [] ⟨"unknown", Payload.num 5, none, 0, false⟩).outcome
      = Outcome.die
    ∧ promiseRejects
        (receiveStep demoMats true true [] ⟨"unknown", Payload.num 5, none, 0, false⟩).outcome
      = true
    ∧ (receiveStep demoMats true true [] ⟨"unknown", Payload.num 5, none, 0, false⟩).applyCalls
      = []
    ∧ (receiveStep demoMats true true [] ⟨"unknown", Payload.num 5, none, 0, false⟩).rollbackCalls
      = [] :=
  client_receive_unknown_name_rejects demoMats true true []
    ⟨"unknown", Payload.num 5, none, 0, false⟩ (by decide) rfl (by decide)

/-- C10: a frame property of `receive` — whenever the event's `clientId`
is absent, or present but not a key of the pending table, the pending
table is unchanged when `receive` completes: only matched
acknowledgements ever mutate `pending`. -/
theorem client_receive_unmatched_preserves_pending
    (mats : List (String × MatEntry)) (rOk aOk : Bool)
    (pending : List (String × CommitEv)) (ev : CommittedEv)
    (hmc : matchedCid pending ev = none) :
    (receiveStep mats rOk aOk pending ev).pending = pending := by
  rw [receiveStep_unmatched mats rOk aOk pending ev hmc]
  exact receiveForeign_pending mats aOk pending ev

/-- C10 witness: an acknowledgement carrying a clientId that is not in
the pending table leaves the table untouched. -/
theorem client_receive_unmatched_preserves_pending_witness :
    (receiveStep demoMats true true [("abc12", pendEv)]
        ⟨"increment", Payload.num 7, some "zzzzz", 3, false⟩).pending
      = [("abc12", pendEv)] :=
  client_receive_unmatched_preserves_pending demoMats true true
    [("abc12", pendEv)] ⟨"increment", Payload.num 7, some "zzzzz", 3, false⟩
    (by decide)

/-- A fresh server replica over the demo events with initial sequence 0. -/
def demoServer : ServerState := ⟨0, Status.idle, [], demoEvents⟩

/-- A fresh client replica over the demo events with initial sequence 0. -/
def demoClient : ClientState := ⟨[], 0, Status.idle, [], demoEvents, demoMats, false⟩

/-- C7: on either replica, `commit` rejects exactly when the submitted
event fails schema validation — its name is not a declared key of the
events map, or its payload does not conform to the declared schema for
that name; on rejection the replica state is untouched (in particular
nothing is enqueued), and on success the only change is the appended
queue slot and the `processing` status — the commit future settles on
enqueue, before and independently of any materialization (neither
embedded commit consults the materializer tables or their outcomes). -/
theorem commit_validation (sst : ServerState) (cst : ClientState)
    (e : CommitEv) :
    ((serverCommit sst e).1 = Outcome.fail ↔ eventValid sst.events e = false)
    ∧ ((clientCommit cst e).1 = Outcome.fail ↔ eventValid cst.events e = false)
    ∧ (eventValid sst.events e = false → (serverCommit sst e).2 = sst)
    ∧ (eventValid cst.events e = false → (clientCommit cst e).2 = cst)
    ∧ (eventValid sst.events e = true →
        serverCommit sst e
          = (Outcome.ok,
              { sst with queue := sst.queue ++ [e], status := Status.processing }))
    ∧ (eventValid cst.events e = true →
        clientCommit cst e
          = (Outcome.ok,
              { cst with queue := cst.queue ++ [e], status := Status.processing })) := by
  by_cases hs : eventValid sst.events e = true <;>
    by_cases hc : eventValid cst.events e = true <;>
    simp [serverCommit, clientCommit, hs, hc]

/-- C7 witness: `{name:'increment', payload:'invalid'}` (a string where
the schema demands a number) is rejected by the server replica with the
state unchanged, while the well-formed `{name:'increment', payload:5}`
is accepted by the client replica and only appended to its queue. -/
theorem commit_validation_witness :
    (serverCommit demoServer ⟨"increment", Payload.str "invalid", none⟩).1
      = Outcome.fail
    ∧ (serverCommit demoServer ⟨"increment", Payload.str "invalid", none⟩).2
      = demoServer
    ∧ clientCommit demoClient incEv
      = (Outcome.ok,
          ⟨[], 0, Status.processing, [incEv], demoEvents, demoMats, false⟩) :=
  have h1 := commit_validation demoServer demoClient
    ⟨"increment", Payload.str "invalid", none⟩
  have h2 := commit_validation demoServer demoClient incEv
  ⟨h1.1.mpr (by decide), h1.2.2.1 (by decide),
    (h2.2.2.2.2.2 (by decide)).trans (by decide)⟩
